import Mathlib

/-!
Verification of the ChatAD catalog pipeline: the taxonomy classifier and
curation pass (`crawlers/adni_curate.py`), the URL classifier
(`crawlers/adni.py`), and the catalog search and PDF fetch-with-cache tools
(`mcp_server/server.py`).  Python string primitives are embedded as
structurally recursive functions over `List Char` so that every definition
evaluates inside the kernel.
-/

namespace ChatAD

/-! ## String primitives

Embeddings of the Python string operations used by the crawler and server:
substring containment (`in`), `str.lower()`, `str.split()` (whitespace),
`str.split(c)` (single-character separator, as used with `/`, `.`, `?`),
`str.replace`, and slicing `[:n]`. -/

/-- `list_pref t s = true` iff `t` is a leading segment of `s`. -/
def list_pref : List Char → List Char → Bool
  | [], _ => true
  | _ :: _, [] => false
  | a :: as, b :: bs => a == b && list_pref as bs

/-- `list_sub t s = true` iff `t` occurs contiguously inside `s`. -/
def list_sub (t : List Char) : List Char → Bool
  | [] => t.isEmpty
  | b :: bs => list_pref t (b :: bs) || list_sub t bs

/-- Python's `t in s` substring test. -/
def strIn (t s : String) : Bool := list_sub t.data s.data

/-- Python's `s.lower()` (ASCII case folding, which covers this corpus). -/
def strLower (s : String) : String := String.mk (s.data.map Char.toLower)

/-- Python's `s[:n]` slice on strings. -/
def strTake (s : String) (n : Nat) : String := String.mk (s.data.take n)

/-- Worker for `pySplit`: accumulates the current run of non-whitespace. -/
def split_ws_aux : List Char → List Char → List String
  | [], acc => if acc.isEmpty then [] else [String.mk acc.reverse]
  | c :: cs, acc =>
    if c.isWhitespace then
      if acc.isEmpty then split_ws_aux cs []
      else String.mk acc.reverse :: split_ws_aux cs []
    else split_ws_aux cs (c :: acc)

/-- Python's `s.split()`: split on whitespace runs and drop empty pieces. -/
def pySplit (s : String) : List String := split_ws_aux s.data []

/-- Worker for `split_char`. -/
def split_char_aux (sep : Char) : List Char → List Char → List String
  | [], acc => [String.mk acc.reverse]
  | c :: cs, acc =>
    if c == sep then String.mk acc.reverse :: split_char_aux sep cs []
    else split_char_aux sep cs (c :: acc)

/-- Python's `s.split(sep)` for a one-character separator (keeps empties). -/
def split_char (sep : Char) (s : String) : List String :=
  split_char_aux sep s.data []

/-- Worker for `str_replace`, fuelled by the input length so the recursion is
structural; the fuel never runs out because each step consumes at least one
input character (an empty pattern is treated as a no-op, matching none of the
call sites). -/
def replace_fuel (pat repl : List Char) : Nat → List Char → List Char
  | 0, s => s
  | _ + 1, [] => []
  | fuel + 1, c :: cs =>
    if !pat.isEmpty && list_pref pat (c :: cs) then
      repl ++ replace_fuel pat repl fuel (List.drop pat.length (c :: cs))
    else c :: replace_fuel pat repl fuel cs

/-- Python's `s.replace(pat, repl)`: leftmost, non-overlapping. -/
def str_replace (s pat repl : String) : String :=
  String.mk (replace_fuel pat.data repl.data (s.data.length + 1) s.data)

/-! ## Taxonomy classifier (`crawlers/adni_curate.py`) -/

/-- The `ADNI_STRUCTURE` table: category → subcategory → reference-title
keywords, in the declaration order of the Python dict literal. -/
def ADNI_STRUCTURE : List (String × List (String × List String)) :=
  [ ("MRI Protocols",
      [ ("General", ["ADNI MRI Overview", "ADNI MRI Method for Non-ADNI Studies", "MRI Acquisition Table"]),
        ("ADNI3", ["ADNI3 MRI Analysis Manual", "ADNI3 MRI Technical Manual", "ADNI 3 MRI Protocols Quick Guide", "ADNI3 MRI Scanner Protocols"]),
        ("ADNI2/GO", ["ADNI GO MRI Technical Procedures", "ADNI GO/2 MRI Training Manual", "ADNI 2 MRI Technical Procedures", "ADNI2/GO MRI Scanner Protocols"]),
        ("ADNI1", ["ADNI 1 MRI Technical Procedures", "ADNI MRI Core Protocol Selection Summary", "ADNI1 MRI Scanner Protocols", "ADNI1 Standardized MRI Collections", "ADNI1 MRI Processed Image Types"]) ]),
    ("PET Protocols",
      [ ("General", ["ADNI 1 PET Technical Procedures", "PET PIB Technical Manual", "ADNI GO PET Technical Procedures", "ADNI 2 PET Technical Procedures", "ADNI 3 PET Technical Manual", "ADNI Centiloids"]) ]),
    ("Clinical Protocols",
      [ ("ADNI1", ["ADNI 1 Clinical Protocols"]),
        ("ADNI GO", ["ADNI GO Clinical Protocols"]),
        ("ADNI2", ["ADNI 2 Clinical Protocols"]),
        ("ADNI3", ["ADNI 3 Clinical Protocols"]) ]),
    ("Biospecimen Protocols",
      [ ("CSF", ["CSF Biomarker Test Instructions", "Lumbar Puncture Protocol"]),
        ("Brain Tissue", ["Neuropathology Sort Protocol", "Neuropathology Manual"]),
        ("Samples", ["ADNI3 Biomarker Sample Collection", "Genetics Sample Collection", "Biofluid Collections"]) ]),
    ("Policies and Procedures",
      [ ("General", ["Data Sharing and Publication Policy", "ADNI Data Use Agreement", "ADNI Manuscript Citations", "ADNI Acknowledgement List", "Groups Acknowldgements", "Access to ADNI Samples", "ADNI RARC Biomarker Application", "ADNI RARC Biomarker Policies"]) ]),
    ("Consent Forms",
      [ ("ADNI4", ["ADNI4 Clinical To Digital Study Partner", "ADNI4 Remote Blood Cohort", "ADNI4 Remote Digital Cohort", "ADNI4 Remote Digital Study Partner", "ADNI4 Clinical To Digital Monitoring", "New Participant ICF", "Rollover Participant ICF", "Study Partner ICF", "Telephone Visit ICF", "Amyloid PET Scan"]),
        ("ADNI3", ["ADNI3 ProtocolVersion", "ADNI3_Sample_Early Frames", "ADNI3_Sample_Brain Donation", "ADNI3 Sample New Subject", "ADNI3 Sample_Rollover Subject", "ADNI3 Sample Telephone Visit Addendum", "ADNI3 Sample Telephone Visit ICF", "ADNI3 Schedule of Activites"]),
        ("ADNI2", ["ADNI2 Sample New Subjects", "ADNI2 Sample Follow-up Subjects"]) ]) ]

/-- The nested keyword-table scan of `categorize_document`: first
(category, subcategory, keyword) triple whose lowercased keyword occurs in
the lowercased title, in table declaration order. -/
def table_match (title_lower : String) : Option (String × String) :=
  ADNI_STRUCTURE.findSome? (fun cs =>
    cs.2.findSome? (fun sk =>
      if sk.2.any (fun keyword => strIn (strLower keyword) title_lower)
      then some (cs.1, sk.1) else none))

/-- `categorize_document` from `adni_curate.py`: `none` means skip. -/
def categorize_document (doc_title doc_url : String) : Option (String × String) :=
  let title_lower := strLower doc_title
  let url_lower := strLower doc_url
  if (["meeting", "notes"].any (fun term => strIn term title_lower)) &&
     (["meetingnotes", "meeting_notes"].any (fun term => strIn term url_lower)) then
    none
  else
    match table_match title_lower with
    | some cs => some cs
    | none =>
      if strIn "mri" title_lower then some ("MRI Protocols", "Other")
      else if strIn "pet" title_lower then some ("PET Protocols", "Other")
      else if strIn "clinical" title_lower || strIn "protocol" title_lower then
        some ("Clinical Protocols", "Other")
      else if strIn "consent" title_lower || strIn "icf" title_lower then
        some ("Consent Forms", "Other")
      else if strIn "biospecimen" title_lower || strIn "biofluid" title_lower || strIn "csf" title_lower then
        some ("Biospecimen Protocols", "Other")
      else if strIn "policy" title_lower || strIn "procedures" title_lower || strIn "agreement" title_lower then
        some ("Policies and Procedures", "Other")
      else some ("Other", "Uncategorized")


/-! ## Spec-side rendering of the taxonomy claim -/

/-- The taxonomy table flattened into (category, subcategory, keyword-list)
rows in declaration order, as the specification words rule (2). -/
def taxonomy_rows : List (String × String × List String) :=
  ADNI_STRUCTURE.flatMap (fun cs => cs.2.map (fun sk => (cs.1, sk.1, sk.2)))

/-- The ordered generic fallback rules of specification rule (3). -/
def fallback_rules : List (List String × String × String) :=
  [ (["mri"], ("MRI Protocols", "Other")),
    (["pet"], ("PET Protocols", "Other")),
    (["clinical", "protocol"], ("Clinical Protocols", "Other")),
    (["consent", "icf"], ("Consent Forms", "Other")),
    (["biospecimen", "biofluid", "csf"], ("Biospecimen Protocols", "Other")),
    (["policy", "procedures", "agreement"], ("Policies and Procedures", "Other")) ]

/-- The taxonomy classifier exactly as the specification words it: four
rules in strict order, first match wins — (1) meeting-note skip,
(2) first matching flattened taxonomy row, (3) first matching generic
fallback rule, (4) the ("Other", "Uncategorized") default. -/
def categorize_document_spec (doc_title doc_url : String) : Option (String × String) :=
  let tl := strLower doc_title
  let ul := strLower doc_url
  if (strIn "meeting" tl || strIn "notes" tl) &&
     (strIn "meetingnotes" ul || strIn "meeting_notes" ul) then none
  else
    match taxonomy_rows.findSome? (fun row =>
        if row.2.2.any (fun keyword => strIn (strLower keyword) tl)
        then some (row.1, row.2.1) else none) with
    | some cs => some cs
    | none =>
      match fallback_rules.findSome? (fun rule =>
          if rule.1.any (fun keyword => strIn keyword tl)
          then some rule.2 else none) with
      | some cs => some cs
      | none => some ("Other", "Uncategorized")

theorem subs_rows_eq (c1 tl : String) (subs : List (String × List String)) :
    subs.findSome? (fun sk =>
        if sk.2.any (fun keyword => strIn (strLower keyword) tl)
        then some (c1, sk.1) else none) =
      (subs.map (fun sk => (c1, sk.1, sk.2))).findSome? (fun row =>
        if row.2.2.any (fun keyword => strIn (strLower keyword) tl)
        then some (row.1, row.2.1) else none) := by
  induction subs with
  | nil => rfl
  | cons s tail ih =>
    simp only [List.map_cons, List.findSome?_cons]
    cases hs : s.2.any (fun keyword => strIn (strLower keyword) tl)
    · exact ih
    · rfl

theorem table_rows_gen (tl : String) (l : List (String × List (String × List String))) :
    l.findSome? (fun cs => cs.2.findSome? (fun sk =>
        if sk.2.any (fun keyword => strIn (strLower keyword) tl)
        then some (cs.1, sk.1) else none)) =
      (l.flatMap (fun cs => cs.2.map (fun sk => (cs.1, sk.1, sk.2)))).findSome? (fun row =>
        if row.2.2.any (fun keyword => strIn (strLower keyword) tl)
        then some (row.1, row.2.1) else none) := by
  induction l with
  | nil => rfl
  | cons c rest ih =>
    simp only [List.flatMap_cons, List.findSome?_cons, List.findSome?_append]
    rw [subs_rows_eq c.1 tl c.2, ih]
    cases (c.2.map (fun sk => (c.1, sk.1, sk.2))).findSome? (fun row =>
        if row.2.2.any (fun keyword => strIn (strLower keyword) tl)
        then some (row.1, row.2.1) else none) <;> rfl

theorem categorize_refines (t u : String) :
    categorize_document t u = categorize_document_spec t u := by
  simp only [categorize_document, categorize_document_spec, table_match, taxonomy_rows]
  rw [table_rows_gen (strLower t) ADNI_STRUCTURE]
  simp only [fallback_rules, List.findSome?_cons, List.findSome?_nil, List.any_cons,
    List.any_nil, Bool.or_false, Bool.or_assoc]
  congr 1
  cases (ADNI_STRUCTURE.flatMap (fun cs => cs.2.map (fun sk => (cs.1, sk.1, sk.2)))).findSome?
      (fun row => if row.2.2.any (fun keyword => strIn (strLower keyword) (strLower t))
        then some (row.1, row.2.1) else none)
  case none =>
    cases h1 : strIn "mri" (strLower t) <;>
    cases h2 : strIn "pet" (strLower t) <;>
    cases h3 : strIn "clinical" (strLower t) || strIn "protocol" (strLower t) <;>
    cases h4 : strIn "consent" (strLower t) || strIn "icf" (strLower t) <;>
    cases h5 : strIn "biospecimen" (strLower t) || (strIn "biofluid" (strLower t) || strIn "csf" (strLower t)) <;>
    cases h6 : strIn "policy" (strLower t) || (strIn "procedures" (strLower t) || strIn "agreement" (strLower t)) <;>
    simp only [h1, h2, h3, h4, h5, h6] <;> rfl
  case some => rfl

/-! ## Curation pass (`main` of `crawlers/adni_curate.py`) -/

/-- A document record as consumed by the curation loop (the two fields the
loop reads). -/
structure CDoc where
  ai_title : String
  url : String
  deriving Repr, DecidableEq

/-- `organized[category]` — an insertion-ordered dict of subcategory →
document list. -/
abbrev SubMap := List (String × List CDoc)

/-- `organized` — an insertion-ordered dict of category → `SubMap`. -/
abbrev CatMap := List (String × SubMap)

/-- Append `d` under key `sub`, creating the key at the end on first use —
Python dict insertion-order semantics. -/
def add_to_sub (m : SubMap) (sub : String) (d : CDoc) : SubMap :=
  match m with
  | [] => [(sub, [d])]
  | (s, ds) :: rest =>
    if s = sub then (s, ds ++ [d]) :: rest else (s, ds) :: add_to_sub rest sub d

/-- Append `d` under `organized[cat][sub]`, creating missing keys at the
end — Python dict insertion-order semantics. -/
def add_to_cat (m : CatMap) (cat sub : String) (d : CDoc) : CatMap :=
  match m with
  | [] => [(cat, [(sub, [d])])]
  | (c, subs) :: rest =>
    if c = cat then (c, add_to_sub subs sub d) :: rest
    else (c, subs) :: add_to_cat rest cat sub d

/-- The three accumulators of the curation loop. -/
structure OrgState where
  organized : CatMap := []
  skipped : List CDoc := []
  uncategorized : List CDoc := []
  deriving Repr, DecidableEq

/-- One iteration of the curation loop in `main`: skip on `None`, otherwise
file into `organized`, and additionally append to `uncategorized` when the
assignment is ("Other", "Uncategorized"). -/
def curate_step (st : OrgState) (doc : CDoc) : OrgState :=
  match categorize_document doc.ai_title doc.url with
  | none => { st with skipped := st.skipped ++ [doc] }
  | some (category, subcat) =>
    let st' := { st with organized := add_to_cat st.organized category subcat doc }
    if category = "Other" ∧ subcat = "Uncategorized" then
      { st' with uncategorized := st'.uncategorized ++ [doc] }
    else st'

/-- The curation loop of `main` over an already-well-formed document list. -/
def organize (docs : List CDoc) : OrgState :=
  docs.foldl curate_step {}

/-- All documents filed anywhere inside `documents_by_category`. -/
def bucket_docs (m : CatMap) : List CDoc :=
  m.flatMap (fun cs => cs.2.flatMap (fun sd => sd.2))

/-- The document list at `organized[cat][sub]`, `[]` when absent. -/
def lookup_sub (m : SubMap) (sub : String) : List CDoc :=
  match m with
  | [] => []
  | (s, ds) :: rest => if s = sub then ds else lookup_sub rest sub

/-- The bucket at `(cat, sub)` of a `CatMap`, `[]` when absent. -/
def lookup_bucket (m : CatMap) (cat sub : String) : List CDoc :=
  match m with
  | [] => []
  | (c, subs) :: rest => if c = cat then lookup_sub subs sub else lookup_bucket rest cat sub

end ChatAD

namespace ChatAD

theorem flat_add_sub (m : SubMap) (sub : String) (d : CDoc) :
    ((add_to_sub m sub d).flatMap (fun sd => sd.2)).Perm (m.flatMap (fun sd => sd.2) ++ [d]) := by
  induction m with
  | nil => simp [add_to_sub]
  | cons p rest ih =>
    obtain ⟨s, ds⟩ := p
    by_cases h : s = sub
    · simp only [add_to_sub, if_pos h, List.flatMap_cons, List.append_assoc,
        List.singleton_append]
      exact List.Perm.append_left ds (List.perm_append_singleton d _).symm
    · simp only [add_to_sub, if_neg h, List.flatMap_cons, List.append_assoc]
      exact List.Perm.append_left ds ih

theorem bucket_add_cat (m : CatMap) (cat sub : String) (d : CDoc) :
    (bucket_docs (add_to_cat m cat sub d)).Perm (bucket_docs m ++ [d]) := by
  induction m with
  | nil => simp [add_to_cat, bucket_docs]
  | cons p rest ih =>
    obtain ⟨c, subs⟩ := p
    by_cases h : c = cat
    · simp only [add_to_cat, if_pos h, bucket_docs, List.flatMap_cons, List.append_assoc]
      refine ((flat_add_sub subs sub d).append_right _).trans ?_
      simp only [List.append_assoc, List.singleton_append]
      exact List.Perm.append_left _ (List.perm_append_singleton d _).symm
    · simp only [add_to_cat, if_neg h, bucket_docs, List.flatMap_cons, List.append_assoc]
      exact List.Perm.append_left _ ih

theorem lookup_sub_add_same (m : SubMap) (sub : String) (d : CDoc) :
    lookup_sub (add_to_sub m sub d) sub = lookup_sub m sub ++ [d] := by
  induction m with
  | nil => simp [add_to_sub, lookup_sub]
  | cons p rest ih =>
    obtain ⟨s, ds⟩ := p
    by_cases h : s = sub
    · simp [add_to_sub, lookup_sub, h]
    · simp [add_to_sub, lookup_sub, h, ih]

theorem lookup_sub_add_other (m : SubMap) (sub s' : String) (d : CDoc) (h : s' ≠ sub) :
    lookup_sub (add_to_sub m sub d) s' = lookup_sub m s' := by
  induction m with
  | nil => simp [add_to_sub, lookup_sub, Ne.symm h]
  | cons p rest ih =>
    obtain ⟨s, ds⟩ := p
    by_cases hs : s = sub
    · subst hs
      simp [add_to_sub, lookup_sub, Ne.symm h, h]
    · by_cases hs' : s = s' <;> simp [add_to_sub, lookup_sub, hs, hs', h, ih]

theorem lookup_bucket_add_same (m : CatMap) (cat sub : String) (d : CDoc) :
    lookup_bucket (add_to_cat m cat sub d) cat sub = lookup_bucket m cat sub ++ [d] := by
  induction m with
  | nil => simp [add_to_cat, lookup_bucket, lookup_sub]
  | cons p rest ih =>
    obtain ⟨c, subs⟩ := p
    by_cases h : c = cat
    · simp [add_to_cat, lookup_bucket, h, lookup_sub_add_same]
    · simp [add_to_cat, lookup_bucket, h, ih]

theorem lookup_bucket_add_other (m : CatMap) (cat sub c' s' : String) (d : CDoc)
    (h : ¬(cat = c' ∧ sub = s')) :
    lookup_bucket (add_to_cat m cat sub d) c' s' = lookup_bucket m c' s' := by
  induction m with
  | nil =>
    by_cases hc : cat = c'
    · subst hc
      have hs : s' ≠ sub := fun hs => h ⟨rfl, hs.symm⟩
      simp [add_to_cat, lookup_bucket, lookup_sub, Ne.symm hs]
    · simp [add_to_cat, lookup_bucket, hc]
  | cons p rest ih =>
    obtain ⟨c, subs⟩ := p
    simp only [add_to_cat]
    by_cases hcc : c = cat
    · rw [if_pos hcc]
      simp only [lookup_bucket]
      by_cases hc' : c = c'
      · rw [if_pos hc', if_pos hc']
        have hs : s' ≠ sub := fun hs => h ⟨hcc.symm.trans hc', hs.symm⟩
        exact lookup_sub_add_other subs sub s' d hs
      · rw [if_neg hc', if_neg hc']
    · rw [if_neg hcc]
      simp only [lookup_bucket]
      by_cases hc' : c = c'
      · rw [if_pos hc', if_pos hc']
      · rw [if_neg hc', if_neg hc', ih]

theorem organize_loop (docs : List CDoc) : ∀ st : OrgState,
    ((bucket_docs (docs.foldl curate_step st).organized ++ (docs.foldl curate_step st).skipped).Perm
      (bucket_docs st.organized ++ st.skipped ++ docs))
    ∧ (st.uncategorized = lookup_bucket st.organized "Other" "Uncategorized" →
        (docs.foldl curate_step st).uncategorized =
          lookup_bucket (docs.foldl curate_step st).organized "Other" "Uncategorized") := by
  induction docs with
  | nil => exact fun st => ⟨by simp, fun h => h⟩
  | cons d rest ih =>
    intro st
    rw [List.foldl_cons]
    have hstep : ((bucket_docs (curate_step st d).organized ++ (curate_step st d).skipped ++ rest).Perm
        (bucket_docs st.organized ++ st.skipped ++ (d :: rest)))
        ∧ (st.uncategorized = lookup_bucket st.organized "Other" "Uncategorized" →
            (curate_step st d).uncategorized =
              lookup_bucket (curate_step st d).organized "Other" "Uncategorized") := by
      unfold curate_step
      cases hc : categorize_document d.ai_title d.url with
      | none =>
        refine ⟨?_, fun h => h⟩
        simp only [List.append_assoc, List.singleton_append]
        exact (List.Perm.refl _)
      | some cs =>
        obtain ⟨cat, sub⟩ := cs
        dsimp only
        by_cases hou : cat = "Other" ∧ sub = "Uncategorized"
        · rw [if_pos hou]
          obtain ⟨h1, h2⟩ := hou
          subst h1; subst h2
          constructor
          · refine (((bucket_add_cat st.organized _ _ d).append_right _).append_right _).trans ?_
            simp only [List.append_assoc, List.singleton_append]
            exact List.Perm.append_left _ List.perm_middle.symm
          · intro h
            simp only [lookup_bucket_add_same, h]
        · rw [if_neg hou]
          constructor
          · refine (((bucket_add_cat st.organized _ _ d).append_right _).append_right _).trans ?_
            simp only [List.append_assoc, List.singleton_append]
            exact List.Perm.append_left _ List.perm_middle.symm
          · intro h
            simp only [lookup_bucket_add_other st.organized cat sub _ _ d hou, h]
    exact ⟨(ih (curate_step st d)).1.trans hstep.1,
      fun h => (ih (curate_step st d)).2 (hstep.2 h)⟩

/-- C1: the taxonomy classifier applies exactly the four rules in strict
order with first match winning — meeting-note skip, keyword-table lookup in
declaration order, ordered generic fallbacks, then the
("Other", "Uncategorized") default — and on the three quoted titles returns
("MRI Protocols", "ADNI3"), skip, and ("Other", "Uncategorized"). -/
theorem claim_C1_taxonomy_four_rules :
    (∀ doc_title doc_url : String,
        categorize_document doc_title doc_url = categorize_document_spec doc_title doc_url)
    ∧ categorize_document "ADNI3 MRI Analysis Manual v2" "https://adni.loni.usc.edu/adni3-mri.pdf" =
        some ("MRI Protocols", "ADNI3")
    ∧ categorize_document "Site Visit Meeting Notes 2020" "https://adni.loni.usc.edu/meetingnotes/site-visit.pdf" =
        none
    ∧ categorize_document "Random Unrelated Form" "https://adni.loni.usc.edu/form.pdf" =
        some ("Other", "Uncategorized") :=
  ⟨categorize_refines, by decide, by decide, by decide⟩

/-- C6 counterexample: a document titled "Random Unrelated Form" is placed
both in the ("Other", "Uncategorized") bucket of `documents_by_category` and
in the `uncategorized` list by the curation run, so the three places are not
mutually exclusive. -/
theorem claim_C6_counterexample :
    (⟨"Random Unrelated Form", "https://adni.loni.usc.edu/form.pdf"⟩ : CDoc) ∈
        lookup_bucket
          (organize [⟨"Random Unrelated Form", "https://adni.loni.usc.edu/form.pdf"⟩]).organized
          "Other" "Uncategorized"
    ∧ (⟨"Random Unrelated Form", "https://adni.loni.usc.edu/form.pdf"⟩ : CDoc) ∈
        (organize [⟨"Random Unrelated Form", "https://adni.loni.usc.edu/form.pdf"⟩]).uncategorized := by
  constructor
  · show _ ∈ lookup_bucket (organize _).organized "Other" "Uncategorized"
    decide
  · decide

/-- C6 (amended): every document of a curation run lands, counted exactly
once, in either some (category, subcategory) bucket of
`documents_by_category` or the `skipped` list, and none is dropped; the
`uncategorized` list is not a third disjoint place — it duplicates exactly
the ("Other", "Uncategorized") bucket. -/
theorem claim_C6_partition_amended (docs : List CDoc) :
    ((bucket_docs (organize docs).organized ++ (organize docs).skipped).Perm docs)
    ∧ (organize docs).uncategorized =
        lookup_bucket (organize docs).organized "Other" "Uncategorized" := by
  have h := organize_loop docs {}
  refine ⟨h.1.trans ?_, h.2 rfl⟩
  simp [bucket_docs]

end ChatAD

namespace ChatAD

/-! ## URL classifier (`filter_and_categorize_links` of `crawlers/adni.py`) -/

/-- The publication-exclusion substrings. -/
def publication_terms : List String :=
  ["publication", "adni-publications", "/wp-content/uploads/papers/"]

/-- The fixed document-extension set. -/
def document_extensions : List String :=
  ["pdf", "doc", "docx", "xls", "xlsx", "ppt", "pptx", "png", "jpg"]

/-- The publication-exclusion rule: any term occurs in the lowercased URL. -/
def is_publication (url : String) : Bool :=
  publication_terms.any (fun term => strIn term (strLower url))

/-- The per-URL document test of the categorization loop, merged with the
title derivation of its document branch: `some (title, ext)` for a document,
`none` for a page.  Mirrors
`parts = url.split('/')[-1].split('.')`,
`ext = parts[-1].lower().split('?')[0]`,
`filename = url.split('/')[-1].split('?')[0]`. -/
def classify_url (url : String) : Option (String × String) :=
  if strIn "." url then
    let parts := split_char '.' ((split_char '/' url).getLastD "")
    if parts.length > 1 then
      let ext := (split_char '?' (strLower (parts.getLastD ""))).headD ""
      if document_extensions.contains ext then
        let filename := (split_char '?' ((split_char '/' url).getLastD "")).headD ""
        some (str_replace (str_replace filename "%20" " ") "_" " ", ext)
      else none
    else none
  else none

/-- The classifier exactly as the claim words it: strip the query string
from the final path segment first, then inspect the substring after the
last '.' of the stripped filename, case-folded. -/
def classify_url_claim (url : String) : Option (String × String) :=
  let filename := (split_char '?' ((split_char '/' url).getLastD "")).headD ""
  let parts := split_char '.' filename
  if parts.length > 1 then
    let ext := strLower (parts.getLastD "")
    if document_extensions.contains ext then
      some (str_replace (str_replace filename "%20" " ") "_" " ", ext)
    else none
  else none

/-- A document record of the crawl output. -/
structure DocRecord where
  url : String
  title : String
  file_extension : String
  deriving Repr, DecidableEq

/-- The crawl output: document records, page URLs and the exclusion count. -/
structure CrawlOut where
  documents : List DocRecord
  pages : List String
  publications_filtered : Nat
  deriving Repr, DecidableEq

/-- The categorization loop over the surviving URLs, in order. -/
def categorize_loop : List String → List DocRecord × List String
  | [] => ([], [])
  | url :: rest =>
    let r := categorize_loop rest
    match classify_url url with
    | some te => (⟨url, te.1, te.2⟩ :: r.1, r.2)
    | none => (r.1, url :: r.2)

/-- `filter_and_categorize_links`: drop publication URLs, then split the
survivors into documents and pages. -/
def filter_and_categorize_links (all_urls : List String) : CrawlOut :=
  let filtered := all_urls.filter (fun url => !is_publication url)
  let dp := categorize_loop filtered
  { documents := dp.1
    pages := dp.2
    publications_filtered := (all_urls.filter (fun url => is_publication url)).length }

theorem char_ofNat_toNat (n : Nat) (h : Nat.isValidChar n) : (Char.ofNat n).toNat = n := by
  simp only [Char.ofNat, h, dif_pos, Char.ofNatAux, Char.toNat]
  rfl

theorem toLower_ne_qm (c : Char) (hne : c ≠ '?') : Char.toLower c ≠ '?' := by
  unfold Char.toLower
  dsimp only
  split
  · intro heq
    rename_i hcond
    have hle : c.toNat ≤ 90 := hcond.2
    have hge : 65 ≤ c.toNat := hcond.1
    have hv : Nat.isValidChar (c.toNat + 32) := by left; omega
    have h2 := congrArg Char.toNat heq
    rw [char_ofNat_toNat _ hv] at h2
    have h3 : ('?').toNat = 63 := rfl
    omega
  · exact hne

theorem list_sub_singleton (c : Char) (l : List Char) : list_sub [c] l = true ↔ c ∈ l := by
  induction l with
  | nil => simp [show list_sub [c] [] = false from rfl]
  | cons b bs ih =>
    show (list_pref [c] (b :: bs) || list_sub [c] bs) = true ↔ c ∈ b :: bs
    rw [show list_pref [c] (b :: bs) = (c == b && list_pref [] bs) from rfl]
    rw [show list_pref [] bs = true from rfl]
    simp [ih]

theorem split_char_aux_ne_nil (c : Char) (l acc : List Char) : split_char_aux c l acc ≠ [] := by
  induction l generalizing acc with
  | nil => exact fun h => List.noConfusion (show ([String.mk acc.reverse] : List String) = [] from h)
  | cons x xs ih =>
    unfold split_char_aux
    by_cases h : x == c
    · simp [h]
    · simp only [h]
      exact ih (x :: acc)

theorem split_char_aux_no_sep (c : Char) (l : List Char) : ∀ acc : List Char, c ∉ l →
    split_char_aux c l acc = [String.mk (acc.reverse ++ l)] := by
  induction l with
  | nil => intro acc _; simp [split_char_aux]
  | cons x xs ih =>
    intro acc h
    have hx : ¬(x == c) := by
      simp only [beq_iff_eq]
      exact fun hxc => h (hxc ▸ List.mem_cons_self x xs)
    have hxs : c ∉ xs := fun hc => h (List.mem_cons_of_mem x hc)
    simp only [split_char_aux, hx, if_neg, Bool.false_eq_true, ite_false]
    rw [ih (x :: acc) hxs]
    simp

theorem split_char_no_sep (c : Char) (s : String) (h : c ∉ s.data) : split_char c s = [s] := by
  unfold split_char
  rw [split_char_aux_no_sep c s.data [] h]
  simp

theorem split_char_aux_chars (c : Char) (l : List Char) : ∀ (acc : List Char) (p : String),
    p ∈ split_char_aux c l acc → ∀ ch ∈ p.data, ch ∈ acc ∨ ch ∈ l := by
  induction l with
  | nil =>
    intro acc p hp ch hch
    simp [split_char_aux] at hp
    subst hp
    simp at hch
    exact Or.inl hch
  | cons x xs ih =>
    intro acc p hp ch hch
    unfold split_char_aux at hp
    by_cases hx : x == c
    · simp only [hx, if_pos] at hp
      rcases List.mem_cons.mp hp with h1 | h1
      · subst h1
        simp at hch
        exact Or.inl hch
      · rcases ih [] p h1 ch hch with h2 | h2
        · simp at h2
        · exact Or.inr (List.mem_cons_of_mem x h2)
    · simp only [hx, Bool.false_eq_true, ite_false] at hp
      rcases ih (x :: acc) p hp ch hch with h2 | h2
      · rcases List.mem_cons.mp h2 with h3 | h3
        · exact Or.inr (h3 ▸ List.mem_cons_self x xs)
        · exact Or.inl h3
      · exact Or.inr (List.mem_cons_of_mem x h2)

theorem getLastD_mem (L : List String) (d : String) (h : L ≠ []) : L.getLastD d ∈ L := by
  induction L generalizing d with
  | nil => exact absurd rfl h
  | cons a as ih =>
    cases has : as with
    | nil => simp
    | cons b bs =>
      rw [List.getLastD_cons]
      subst has
      exact List.mem_cons_of_mem a (ih a (by simp))

theorem split_char_getLastD_chars (c : Char) (s : String) (ch : Char)
    (h : ch ∈ ((split_char c s).getLastD "").data) : ch ∈ s.data := by
  have hne := split_char_aux_ne_nil c s.data []
  have hmem := getLastD_mem _ "" hne
  rcases split_char_aux_chars c s.data [] _ hmem ch h with h2 | h2
  · simp at h2
  · exact h2

theorem strLower_no_qm (s : String) (h : '?' ∉ s.data) : '?' ∉ (strLower s).data := by
  unfold strLower
  intro hmem
  simp only [List.mem_map] at hmem
  obtain ⟨ch, hch, heq⟩ := hmem
  exact toLower_ne_qm ch (fun hq => h (hq ▸ hch)) heq

end ChatAD

namespace ChatAD

theorem classify_no_query (url : String) (h : '?' ∉ url.data) :
    classify_url url = classify_url_claim url := by
  have hseg : '?' ∉ ((split_char '/' url).getLastD "").data :=
    fun hq => h (split_char_getLastD_chars '/' url '?' hq)
  have hfile : (split_char '?' ((split_char '/' url).getLastD "")).headD "" =
      (split_char '/' url).getLastD "" := by
    rw [split_char_no_sep '?' _ hseg]
    rfl
  simp only [classify_url, classify_url_claim]
  rw [hfile]
  by_cases hdot : strIn "." url = true
  · rw [if_pos hdot]
    by_cases hlen : (split_char '.' ((split_char '/' url).getLastD "")).length > 1
    · rw [if_pos hlen, if_pos hlen]
      have hlast : '?' ∉ ((split_char '.' ((split_char '/' url).getLastD "")).getLastD "").data :=
        fun hq => hseg (split_char_getLastD_chars '.' _ '?' hq)
      have hlow := strLower_no_qm _ hlast
      rw [split_char_no_sep '?' _ hlow]
      rfl
    · rw [if_neg hlen, if_neg hlen]
  · rw [if_neg hdot]
    have hdot' : ('.') ∉ url.data := by
      intro hd
      exact hdot ((list_sub_singleton '.' url.data).mpr hd)
    have hsegdot : ('.') ∉ ((split_char '/' url).getLastD "").data :=
      fun hq => hdot' (split_char_getLastD_chars '/' url '.' hq)
    rw [split_char_no_sep '.' _ hsegdot]
    simp

theorem categorize_loop_eq (urls : List String) :
    categorize_loop urls =
      (urls.filterMap (fun u => (classify_url u).map (fun te => (⟨u, te.1, te.2⟩ : DocRecord))),
       urls.filter (fun u => (classify_url u).isNone)) := by
  induction urls with
  | nil => rfl
  | cons u rest ih =>
    simp only [categorize_loop, ih, List.filterMap_cons, List.filter_cons]
    cases hc : classify_url u <;> simp [hc]

/-- C3 counterexample: the URL `https://adni.loni.usc.edu/doc.pdf?ver=1.2`
survives publication exclusion and the claim's strip-query-first rule makes
it a Document with extension pdf, yet the code classifies it as a Page,
because the code takes the substring after the last '.' of the raw final
segment (here "2", from the query string) before stripping at '?'. -/
theorem claim_C3_counterexample :
    is_publication "https://adni.loni.usc.edu/doc.pdf?ver=1.2" = false
    ∧ classify_url "https://adni.loni.usc.edu/doc.pdf?ver=1.2" = none
    ∧ classify_url_claim "https://adni.loni.usc.edu/doc.pdf?ver=1.2" = some ("doc.pdf", "pdf") :=
  ⟨by decide, by decide, by decide⟩

/-- C3 (amended): survivors of publication exclusion are partitioned into
documents and pages by `classify_url`, which takes the substring after the
last '.' of the raw final segment (query string included), lowercases it and
truncates it at the first '?'; excluded URLs appear in neither output; the
title is the query-stripped filename with '%20' and '_' replaced by spaces;
for URLs with no '?' the claimed strip-query-first description coincides
with the code. -/
theorem claim_C3_classifier_amended (all_urls : List String) :
    (filter_and_categorize_links all_urls).documents =
        (all_urls.filter (fun u => !is_publication u)).filterMap
          (fun u => (classify_url u).map (fun te => (⟨u, te.1, te.2⟩ : DocRecord)))
    ∧ (filter_and_categorize_links all_urls).pages =
        (all_urls.filter (fun u => !is_publication u)).filter
          (fun u => (classify_url u).isNone)
    ∧ (((filter_and_categorize_links all_urls).documents.map (fun dr => dr.url)) ++
        (filter_and_categorize_links all_urls).pages).all (fun u => !is_publication u) = true
    ∧ (∀ url : String, '?' ∉ url.data → classify_url url = classify_url_claim url)
    ∧ classify_url "https://adni.loni.usc.edu/ADNI3%20MRI_Manual.PDF" =
        some ("ADNI3 MRI Manual.PDF", "pdf") := by
  refine ⟨?_, ?_, ?_, classify_no_query, by decide⟩
  · simp only [filter_and_categorize_links, categorize_loop_eq]
  · simp only [filter_and_categorize_links]
    rw [categorize_loop_eq]
  · rw [List.all_eq_true]
    intro u hu
    simp only [filter_and_categorize_links, categorize_loop_eq] at hu
    rcases List.mem_append.mp hu with h1 | h1
    · obtain ⟨dr, hdr, hdru⟩ := List.mem_map.mp h1
      obtain ⟨v, hv, hvd⟩ := List.mem_filterMap.mp hdr
      cases hc : classify_url v with
      | none => rw [hc] at hvd; exact absurd hvd (by simp)
      | some te =>
        rw [hc] at hvd
        have hdr2 : (⟨v, te.1, te.2⟩ : DocRecord) = dr := by simpa using hvd
        rw [← hdru, ← hdr2]
        exact (List.mem_filter.mp hv).2
    · have h2 := List.mem_filter.mp h1
      exact (List.mem_filter.mp h2.1).2

/-- Witness for the C3 amended theorem: a concrete query-free URL on which
the code classifier and the claim-worded classifier agree. -/
theorem claim_C3_classifier_amended_witness :
    classify_url "https://adni.loni.usc.edu/ADNI_General_Procedures_Manual.pdf" =
      classify_url_claim "https://adni.loni.usc.edu/ADNI_General_Procedures_Manual.pdf" :=
  (claim_C3_classifier_amended []).2.2.2.1
    "https://adni.loni.usc.edu/ADNI_General_Procedures_Manual.pdf" (by decide)

end ChatAD

namespace ChatAD

/-! ## Catalog search (`search_catalog` of `mcp_server/server.py`) -/

/-- A catalog document as read by the server (missing JSON fields read as
`""` via `doc.get(..., "")`). -/
structure SDoc where
  title : String := ""
  ai_title : String := ""
  ai_description : String := ""
  url : String := ""
  file_extension : String := ""
  deriving Repr, DecidableEq

/-- The catalog as read by the server: the categorized tree, the
`uncategorized.documents` list, and the flat `documents` list used by the
fetch tool's metadata lookup. -/
structure Catalog where
  documents_by_category : List (String × List (String × List SDoc)) := []
  uncategorized : List SDoc := []
  documents : List SDoc := []
  deriving Repr, DecidableEq

/-- The searchable text of one document:
`" ".join([title, ai_title, ai_description, category, subcategory]).lower()`. -/
def searchable_text (d : SDoc) (category subcategory : String) : String :=
  strLower (String.intercalate " "
    [d.title, d.ai_title, d.ai_description, category, subcategory])

/-- One entry of the `matches` list. -/
structure MatchEntry where
  title : String
  description : String
  url : String
  category : String
  subcategory : String
  file_type : String
  deriving Repr, DecidableEq

/-- The match payload built for a hit:
`doc.get("ai_title") or doc.get("title", "")` etc. -/
def match_entry (d : SDoc) (category subcategory : String) : MatchEntry :=
  { title := if d.ai_title = "" then d.title else d.ai_title
    description := d.ai_description
    url := d.url
    category := category
    subcategory := subcategory
    file_type := d.file_extension }

/-- The extensions eligible for search results. -/
def searchable_extensions : List String := ["pdf", "docx", "doc"]

/-- `search_documents`: append a match for each document all of whose query
terms occur in its searchable text and whose extension is eligible. -/
def search_documents (terms : List String) (category subcategory : String) :
    List SDoc → List MatchEntry
  | [] => []
  | d :: ds =>
    if terms.all (fun term => strIn term (searchable_text d category subcategory)) then
      if searchable_extensions.contains d.file_extension then
        match_entry d category subcategory :: search_documents terms category subcategory ds
      else search_documents terms category subcategory ds
    else search_documents terms category subcategory ds

/-- The full `matches` list: the categorized tree in traversal order, then
the uncategorized bucket under the label ("Uncategorized", ""). -/
def search_matches (catalog : Catalog) (terms : List String) : List MatchEntry :=
  (catalog.documents_by_category.flatMap (fun cs =>
      cs.2.flatMap (fun sd => search_documents terms cs.1 sd.1 sd.2)))
    ++ search_documents terms "Uncategorized" "" catalog.uncategorized

/-- The `search_catalog` response payload. -/
structure SearchResult where
  query : String
  total_matches : Nat
  truncated : Bool
  documents : List MatchEntry
  deriving Repr, DecidableEq

/-- `search_catalog`: split the lowercased query on whitespace, collect the
matches, and cap the result at 20 entries. -/
def search_catalog (query : String) (catalog : Catalog) : SearchResult :=
  let terms := pySplit (strLower query)
  let ms := search_matches catalog terms
  if ms.length > 20 then
    { query := query
      total_matches := (ms.take 20).length
      truncated := true
      documents := ms.take 20 }
  else
    { query := query
      total_matches := ms.length
      truncated := false
      documents := ms }

/-- The catalog's documents in traversal order, each paired with its
(category, subcategory) labels — the sequence `search_catalog` scans. -/
def catalog_entries (catalog : Catalog) : List (SDoc × String × String) :=
  (catalog.documents_by_category.flatMap (fun cs =>
      cs.2.flatMap (fun sd => sd.2.map (fun d => (d, cs.1, sd.1)))))
    ++ catalog.uncategorized.map (fun d => (d, "Uncategorized", ""))

/-- The match condition of the claim: every term occurs in the searchable
text and the extension is eligible. -/
def entry_matches (terms : List String) (e : SDoc × String × String) : Bool :=
  terms.all (fun term => strIn term (searchable_text e.1 e.2.1 e.2.2)) &&
    searchable_extensions.contains e.1.file_extension

theorem search_documents_eq (terms : List String) (category subcategory : String)
    (ds : List SDoc) :
    search_documents terms category subcategory ds =
      ((ds.map (fun d => (d, category, subcategory))).filter (entry_matches terms)).map
        (fun e => match_entry e.1 e.2.1 e.2.2) := by
  induction ds with
  | nil => rfl
  | cons d rest ih =>
    simp only [search_documents, List.map_cons, List.filter_cons, entry_matches]
    by_cases ht : (terms.all fun term => strIn term (searchable_text d category subcategory)) = true <;>
      by_cases he : d.file_extension ∈ searchable_extensions <;>
      simp [ht, he, ih, entry_matches]

theorem search_matches_eq (catalog : Catalog) (terms : List String) :
    search_matches catalog terms =
      ((catalog_entries catalog).filter (entry_matches terms)).map
        (fun e => match_entry e.1 e.2.1 e.2.2) := by
  unfold search_matches catalog_entries
  rw [List.filter_append, List.map_append]
  congr 1
  · induction catalog.documents_by_category with
    | nil => rfl
    | cons c rest ihc =>
      simp only [List.flatMap_cons, List.filter_append, List.map_append, ihc]
      congr 1
      induction c.2 with
      | nil => rfl
      | cons sd tail ihs =>
        simp only [List.flatMap_cons, List.filter_append, List.map_append, ihs]
        congr 1
        exact search_documents_eq terms c.1 sd.1 sd.2
  · exact search_documents_eq terms "Uncategorized" "" catalog.uncategorized

end ChatAD

namespace ChatAD

/-- C2: a catalog entry enters the match list exactly when every
whitespace-separated lowercased query term occurs in its lowercased
searchable text and its extension is pdf, docx or doc; every document the
search returns carries one of those three extensions, so a png entry is
never returned. -/
theorem claim_C2_search_match_criterion (catalog : Catalog) (query : String) :
    search_matches catalog (pySplit (strLower query)) =
      ((catalog_entries catalog).filter (entry_matches (pySplit (strLower query)))).map
        (fun e => match_entry e.1 e.2.1 e.2.2)
    ∧ ((search_catalog query catalog).documents).all
        (fun m => searchable_extensions.contains m.file_type) = true := by
  refine ⟨search_matches_eq catalog _, ?_⟩
  rw [List.all_eq_true]
  intro m hm
  have hms : m ∈ search_matches catalog (pySplit (strLower query)) := by
    unfold search_catalog at hm
    dsimp only at hm
    by_cases h : (search_matches catalog (pySplit (strLower query))).length > 20
    · rw [if_pos h] at hm
      exact List.take_subset 20 _ hm
    · rw [if_neg h] at hm
      exact hm
  rw [search_matches_eq] at hms
  obtain ⟨e, he, hme⟩ := List.mem_map.mp hms
  have hcond := (List.mem_filter.mp he).2
  have hext : searchable_extensions.contains e.1.file_extension = true := by
    unfold entry_matches at hcond
    exact ((Bool.and_eq_true _ _) ▸ hcond).2
  rw [← hme]
  exact hext

/-- C7: the returned document list always has length at most 20 and is
exactly the first 20 matches in traversal order (category table order, then
subcategory, then document, then the uncategorized bucket), and the
truncated flag is true iff the raw match count exceeds 20. -/
theorem claim_C7_search_cap (catalog : Catalog) (query : String) :
    (search_catalog query catalog).documents.length ≤ 20
    ∧ (search_catalog query catalog).documents =
        (search_matches catalog (pySplit (strLower query))).take 20
    ∧ ((search_catalog query catalog).truncated = true ↔
        20 < (search_matches catalog (pySplit (strLower query))).length) := by
  unfold search_catalog
  dsimp only
  by_cases h : (search_matches catalog (pySplit (strLower query))).length > 20
  · rw [if_pos h]
    refine ⟨?_, rfl, ?_⟩
    · simp [List.length_take]
    · simpa using h
  · rw [if_neg h]
    push_neg at h
    refine ⟨h, (List.take_of_length_le h).symm, ?_⟩
    constructor
    · intro hx
      exact absurd hx (by simp)
    · intro hx
      exact absurd hx (not_lt.mpr h)

/-- C10: an empty or whitespace-only query splits into no terms, the
AND-of-terms condition holds vacuously, and the result is the first 20
entries with extension pdf, docx or doc in traversal order, with the
truncated flag set iff more than 20 such entries exist. -/
theorem claim_C10_empty_query (catalog : Catalog) (query : String)
    (h : pySplit (strLower query) = []) :
    (search_catalog query catalog).documents =
      (((catalog_entries catalog).filter (fun e =>
          searchable_extensions.contains e.1.file_extension)).map
        (fun e => match_entry e.1 e.2.1 e.2.2)).take 20
    ∧ ((search_catalog query catalog).truncated = true ↔
        20 < ((catalog_entries catalog).filter (fun e =>
          searchable_extensions.contains e.1.file_extension)).length) := by
  have hm : search_matches catalog (pySplit (strLower query)) =
      ((catalog_entries catalog).filter (fun e =>
        searchable_extensions.contains e.1.file_extension)).map
      (fun e => match_entry e.1 e.2.1 e.2.2) := by
    have hfil : (catalog_entries catalog).filter (entry_matches []) =
        (catalog_entries catalog).filter (fun e =>
          searchable_extensions.contains e.1.file_extension) := by
      apply List.filter_congr
      intro e _
      simp [entry_matches]
    rw [search_matches_eq, h, hfil]
  unfold search_catalog
  dsimp only
  rw [hm]
  by_cases h20 : (((catalog_entries catalog).filter (fun e =>
      searchable_extensions.contains e.1.file_extension)).map
      (fun e => match_entry e.1 e.2.1 e.2.2)).length > 20
  · rw [if_pos h20]
    refine ⟨rfl, ?_⟩
    simp only [List.length_map] at h20
    simpa using h20
  · rw [if_neg h20]
    push_neg at h20
    refine ⟨(List.take_of_length_le h20).symm, ?_⟩
    simp only [List.length_map] at h20
    constructor
    · intro hx
      exact absurd hx (by simp)
    · intro hx
      exact absurd hx (not_lt.mpr h20)

/-- A small concrete catalog used to witness the search theorems. -/
def sample_catalog : Catalog :=
  { documents_by_category :=
      [ ("MRI Protocols",
          [ ("ADNI3",
              [ { title := "ADNI3 MRI Analysis Manual"
                  ai_title := "ADNI3 MRI Analysis Manual"
                  ai_description := "Analysis manual"
                  url := "https://adni.loni.usc.edu/adni3-mri.pdf"
                  file_extension := "pdf" } ]) ]) ]
    uncategorized :=
      [ { title := "diagram.png"
          url := "https://adni.loni.usc.edu/diagram.png"
          file_extension := "png" } ]
    documents :=
      [ { title := "ADNI3 MRI Analysis Manual"
          ai_title := "ADNI3 MRI Analysis Manual"
          ai_description := "Analysis manual"
          url := "https://adni.loni.usc.edu/adni3-mri.pdf"
          file_extension := "pdf" } ] }

/-- Witness for the C10 theorem at a whitespace-only query and a concrete
catalog. -/
theorem claim_C10_empty_query_witness :
    (search_catalog " " sample_catalog).documents =
      (((catalog_entries sample_catalog).filter (fun e =>
          searchable_extensions.contains e.1.file_extension)).map
        (fun e => match_entry e.1 e.2.1 e.2.2)).take 20
    ∧ ((search_catalog " " sample_catalog).truncated = true ↔
        20 < ((catalog_entries sample_catalog).filter (fun e =>
          searchable_extensions.contains e.1.file_extension)).length) :=
  claim_C10_empty_query sample_catalog " " (by decide)

end ChatAD

namespace ChatAD

/-! ## PDF fetch with cache (`fetch_pdf_content` of `mcp_server/server.py`) -/

/-- The flat-file text cache: association of cache-file name to stored
text; inserting at the front models overwriting the file. -/
abbrev Cache := List (String × String)

/-- Read the cache entry for a key, if its file exists. -/
def cacheLookup : Cache → String → Option String
  | [], _ => none
  | (k, v) :: rest, key => if k = key then some v else cacheLookup rest key

/-- Write a cache entry. -/
def cacheInsert (cache : Cache) (key v : String) : Cache := (key, v) :: cache

/-- Models `hashlib.md5(url.encode()).hexdigest()`: a deterministic,
per-URL-stable key derivation, embedded as the identity key — only
determinism and stability matter to these claims, and md5 collisions are
outside this development. -/
def url_hash (url : String) : String := url

/-- The `fetch_pdf` success payload (`pages`/`pages_extracted` only appear
on a fresh fetch). -/
structure PdfResult where
  title : String
  url : String
  cached : Bool
  pages : Option Nat
  pages_extracted : Option Nat
  content : String
  citation : String
  deriving Repr, DecidableEq

/-- The structured error payload. -/
structure FetchErr where
  error : String
  url : String
  deriving Repr, DecidableEq

/-- `[Page {n+1}]\n{text}` blocks for the first `max_pages` pages whose
extracted text has a non-whitespace character (`if text.strip()`). -/
def page_blocks (pgs : List String) (max_pages : Nat) : List String :=
  ((pgs.take max_pages).enum).filterMap (fun p =>
    if p.2.data.any (fun c => !c.isWhitespace) then
      some ("[Page " ++ toString (p.1 + 1) ++ "]\n" ++ p.2)
    else none)

/-- The read-time 50,000-character cap with its character-count notice,
the code repeated verbatim on the cache-hit and fresh-fetch paths. -/
def read_trunc (s : String) : String :=
  let content_preview := strTake s 50000
  let char_notice := "\n\n[... Content truncated. Full document has " ++
    toString s.length ++ " characters ...]"
  if s.length > 50000 then content_preview ++ char_notice else content_preview

/-- `fetch_pdf_content`, with the network download plus PDF text extraction
as an oracle `web` from a URL to its per-page extracted text (`none` models
any request, status or parse failure caught by the `except` branch). -/
def fetch_pdf_content (web : String → Option (List String)) (catalog : Catalog)
    (url : String) (cache : Cache) : Except FetchErr PdfResult × Cache :=
  let doc_info := catalog.documents.find? (fun d => d.url == url)
  let cache_key := url_hash url
  match cacheLookup cache cache_key with
  | some cached_content =>
    (Except.ok
      { title := match doc_info with | some d => d.ai_title | none => ""
        url := url
        cached := true
        pages := none
        pages_extracted := none
        content := read_trunc cached_content
        citation := match doc_info with
          | some d => "Source: " ++ d.ai_title ++ " - " ++ url
          | none => "Source: " ++ url },
     cache)
  | none =>
    match web url with
    | none => (Except.error { error := "Failed to fetch PDF", url := url }, cache)
    | some pgs =>
      let max_pages := min 20 pgs.length
      let joined := String.intercalate "\n\n" (page_blocks pgs max_pages)
      let page_notice := "\n\n[... Showing first " ++ toString max_pages ++ " of " ++
        toString pgs.length ++ " pages ...]"
      let full_text := if pgs.length > max_pages then joined ++ page_notice else joined
      (Except.ok
        { title := match doc_info with | some d => d.ai_title | none => ""
          url := url
          cached := false
          pages := some pgs.length
          pages_extracted := some max_pages
          content := read_trunc full_text
          citation := match doc_info with
            | some d => "Source: " ++ d.ai_title ++ " - " ++ url
            | none => "Source: " ++ url },
       cacheInsert cache cache_key full_text)

theorem cacheLookup_insert (cache : Cache) (key v : String) :
    cacheLookup (cacheInsert cache key v) key = some v := by
  simp [cacheInsert, cacheLookup]

theorem str_append_empty (s : String) : s ++ "" = s := by
  cases s with
  | mk l => show String.mk (l ++ []) = String.mk l; rw [List.append_nil]

theorem read_trunc_eq (s : String) :
    read_trunc s = strTake s 50000 ++
      (if s.length > 50000 then
        "\n\n[... Content truncated. Full document has " ++
          toString s.length ++ " characters ...]"
      else "") := by
  have hassoc : ∀ a b c : String, a ++ b ++ c = a ++ (b ++ c) := by
    intro a b c
    cases a with
    | mk la =>
      cases b with
      | mk lb =>
        cases c with
        | mk lc => show String.mk ((la ++ lb) ++ lc) = String.mk (la ++ (lb ++ lc))
                   rw [List.append_assoc]
  unfold read_trunc
  dsimp only
  by_cases h : s.length > 50000
  · rw [if_pos h, if_pos h, hassoc]
  · rw [if_neg h, if_neg h, str_append_empty]

theorem list_sub_append_right (t b : List Char) (h : list_sub t b = true) :
    ∀ a : List Char, list_sub t (a ++ b) = true := by
  intro a
  induction a with
  | nil => exact h
  | cons x xs ih =>
    show (list_pref t (x :: (xs ++ b)) || list_sub t (xs ++ b)) = true
    rw [ih]
    simp

theorem strIn_append_right (t a b : String) (h : strIn t b = true) :
    strIn t (a ++ b) = true := by
  cases a with
  | mk la =>
    cases b with
    | mk lb =>
      show list_sub t.data (la ++ lb) = true
      exact list_sub_append_right t.data lb h la

end ChatAD

namespace ChatAD

/-- C5: on every successful fetch, cache hit or miss, the returned content
is the first 50,000 characters of the text stored in the cache after the
call, with a notice stating the true total character count appended exactly
when that text exceeds 50,000 characters — re-applied on every read. -/
theorem claim_C5_read_truncation (web : String → Option (List String)) (catalog : Catalog)
    (url : String) (cache : Cache) (r : PdfResult) (cache' : Cache)
    (h : fetch_pdf_content web catalog url cache = (Except.ok r, cache')) :
    ∃ full_text, cacheLookup cache' (url_hash url) = some full_text
      ∧ r.content = strTake full_text 50000 ++
          (if full_text.length > 50000 then
            "\n\n[... Content truncated. Full document has " ++
              toString full_text.length ++ " characters ...]"
          else "") := by
  unfold fetch_pdf_content at h
  dsimp only at h
  cases hc : cacheLookup cache (url_hash url) with
  | some cached_content =>
    rw [hc] at h
    simp only [Prod.mk.injEq, Except.ok.injEq] at h
    obtain ⟨hr, hcache⟩ := h
    refine ⟨cached_content, ?_, ?_⟩
    · rw [← hcache]
      exact hc
    · rw [← hr, ← read_trunc_eq]
  | none =>
    rw [hc] at h
    cases hw : web url with
    | none =>
      rw [hw] at h
      simp at h
    | some pgs =>
      rw [hw] at h
      simp only [Prod.mk.injEq, Except.ok.injEq] at h
      obtain ⟨hr, hcache⟩ := h
      rw [← hcache, ← hr]
      exact ⟨_, cacheLookup_insert cache (url_hash url) _, by rw [← read_trunc_eq]⟩

/-- C9: when the fetched URL exactly matches a catalog document, the
response title is that document's `ai_title` and the citation combines it
with the URL; otherwise the title is empty and the citation is the bare
URL. -/
theorem claim_C9_title_citation (web : String → Option (List String)) (catalog : Catalog)
    (url : String) (cache : Cache) (r : PdfResult) (cache' : Cache)
    (h : fetch_pdf_content web catalog url cache = (Except.ok r, cache')) :
    (∀ d, catalog.documents.find? (fun x => x.url == url) = some d →
        r.title = d.ai_title ∧ r.citation = "Source: " ++ d.ai_title ++ " - " ++ url)
    ∧ (catalog.documents.find? (fun x => x.url == url) = none →
        r.title = "" ∧ r.citation = "Source: " ++ url) := by
  unfold fetch_pdf_content at h
  dsimp only at h
  cases hc : cacheLookup cache (url_hash url) with
  | some cached_content =>
    rw [hc] at h
    simp only [Prod.mk.injEq, Except.ok.injEq] at h
    obtain ⟨hr, hcache⟩ := h
    constructor
    · intro d hd
      rw [hd] at hr
      rw [← hr]
      exact ⟨rfl, rfl⟩
    · intro hd
      rw [hd] at hr
      rw [← hr]
      exact ⟨rfl, rfl⟩
  | none =>
    rw [hc] at h
    cases hw : web url with
    | none =>
      rw [hw] at h
      simp at h
    | some pgs =>
      rw [hw] at h
      simp only [Prod.mk.injEq, Except.ok.injEq] at h
      obtain ⟨hr, hcache⟩ := h
      constructor
      · intro d hd
        rw [hd] at hr
        rw [← hr]
        exact ⟨rfl, rfl⟩
      · intro hd
        rw [hd] at hr
        rw [← hr]
        exact ⟨rfl, rfl⟩

/-- C4: on a 30-page source, a first fetch returns pages=30 and
pages_extracted=20, appends the "[... Showing first 20 of 30 pages ...]"
notice to the stored text, and returns its read-capped form; a second fetch
of the same URL reads the cache — its result does not depend on the network
oracle at all — returning cached=true with content byte-identical to the
read-capped stored text, and leaves the cache unchanged. -/
theorem claim_C4_fetch_cache (web web' : String → Option (List String)) (catalog : Catalog)
    (url : String) (cache : Cache) (pgs : List String)
    (hmiss : cacheLookup cache (url_hash url) = none)
    (hweb : web url = some pgs) (hlen : pgs.length = 30) :
    ∃ r1 full_text,
      fetch_pdf_content web catalog url cache =
        (Except.ok r1, cacheInsert cache (url_hash url) full_text)
      ∧ r1.cached = false
      ∧ r1.pages = some 30
      ∧ r1.pages_extracted = some 20
      ∧ strIn "[... Showing first 20 of 30 pages ...]" full_text = true
      ∧ r1.content = read_trunc full_text
      ∧ (∀ webX : String → Option (List String),
          fetch_pdf_content webX catalog url (cacheInsert cache (url_hash url) full_text) =
            (Except.ok { r1 with cached := true, pages := none, pages_extracted := none },
             cacheInsert cache (url_hash url) full_text))
      ∧ fetch_pdf_content web' catalog url (cacheInsert cache (url_hash url) full_text) =
          (Except.ok { r1 with cached := true, pages := none, pages_extracted := none },
           cacheInsert cache (url_hash url) full_text) := by
  have hmin : min 20 pgs.length = 20 := by rw [hlen]; decide
  have hgt : pgs.length > min 20 pgs.length := by rw [hmin, hlen]; omega
  have hsecond : ∀ (webX : String → Option (List String)) (ft : String),
      fetch_pdf_content webX catalog url (cacheInsert cache (url_hash url) ft) =
        (Except.ok
          { title := match catalog.documents.find? (fun d => d.url == url) with
              | some d => d.ai_title | none => ""
            url := url
            cached := true
            pages := none
            pages_extracted := none
            content := read_trunc ft
            citation := match catalog.documents.find? (fun d => d.url == url) with
              | some d => "Source: " ++ d.ai_title ++ " - " ++ url
              | none => "Source: " ++ url },
         cacheInsert cache (url_hash url) ft) := by
    intro webX ft
    unfold fetch_pdf_content
    dsimp only
    rw [cacheLookup_insert]
  refine
    ⟨{ title := match catalog.documents.find? (fun d => d.url == url) with
          | some d => d.ai_title | none => ""
       url := url
       cached := false
       pages := some pgs.length
       pages_extracted := some (min 20 pgs.length)
       content := read_trunc (String.intercalate "\n\n" (page_blocks pgs (min 20 pgs.length)) ++
         ("\n\n[... Showing first " ++ toString (min 20 pgs.length) ++ " of " ++
           toString pgs.length ++ " pages ...]"))
       citation := match catalog.documents.find? (fun d => d.url == url) with
          | some d => "Source: " ++ d.ai_title ++ " - " ++ url
          | none => "Source: " ++ url },
     String.intercalate "\n\n" (page_blocks pgs (min 20 pgs.length)) ++
       ("\n\n[... Showing first " ++ toString (min 20 pgs.length) ++ " of " ++
         toString pgs.length ++ " pages ...]"),
     ?_, rfl, ?_, ?_, ?_, rfl, ?_, ?_⟩
  · unfold fetch_pdf_content
    dsimp only
    rw [hmiss]
    dsimp only
    rw [hweb]
    dsimp only
    rw [if_pos hgt]
  · rw [hlen]
  · rw [hmin]
  · apply strIn_append_right
    rw [hmin, hlen]
    decide
  · intro webX
    exact hsecond webX _
  · exact hsecond web' _
end ChatAD

namespace ChatAD

/-- Witness for the C4 theorem: a concrete 30-page source fetched twice,
the second time with a dead network oracle. -/
theorem claim_C4_fetch_cache_witness :
    ∃ r1 full_text,
      fetch_pdf_content (fun _ => some (List.replicate 30 "Sample page text")) sample_catalog
          "https://adni.loni.usc.edu/adni3-mri.pdf" [] =
        (Except.ok r1, cacheInsert [] (url_hash "https://adni.loni.usc.edu/adni3-mri.pdf") full_text)
      ∧ r1.cached = false
      ∧ r1.pages = some 30
      ∧ r1.pages_extracted = some 20
      ∧ strIn "[... Showing first 20 of 30 pages ...]" full_text = true
      ∧ r1.content = read_trunc full_text
      ∧ (∀ webX : String → Option (List String),
          fetch_pdf_content webX sample_catalog "https://adni.loni.usc.edu/adni3-mri.pdf"
              (cacheInsert [] (url_hash "https://adni.loni.usc.edu/adni3-mri.pdf") full_text) =
            (Except.ok { r1 with cached := true, pages := none, pages_extracted := none },
             cacheInsert [] (url_hash "https://adni.loni.usc.edu/adni3-mri.pdf") full_text))
      ∧ fetch_pdf_content (fun _ => none) sample_catalog "https://adni.loni.usc.edu/adni3-mri.pdf"
            (cacheInsert [] (url_hash "https://adni.loni.usc.edu/adni3-mri.pdf") full_text) =
          (Except.ok { r1 with cached := true, pages := none, pages_extracted := none },
           cacheInsert [] (url_hash "https://adni.loni.usc.edu/adni3-mri.pdf") full_text) :=
  claim_C4_fetch_cache (fun _ => some (List.replicate 30 "Sample page text")) (fun _ => none)
    sample_catalog "https://adni.loni.usc.edu/adni3-mri.pdf" []
    (List.replicate 30 "Sample page text") rfl rfl (by decide)

/-- The result of a cache-hit fetch of a URL absent from the catalog. -/
def sample_c5_result : PdfResult :=
  { title := ""
    url := "https://adni.loni.usc.edu/cached.pdf"
    cached := true
    pages := none
    pages_extracted := none
    content := read_trunc "Hello"
    citation := "Source: https://adni.loni.usc.edu/cached.pdf" }

/-- Witness for the C5 theorem on a concrete cache hit. -/
theorem claim_C5_read_truncation_witness :
    ∃ full_text,
      cacheLookup [("https://adni.loni.usc.edu/cached.pdf", "Hello")]
          (url_hash "https://adni.loni.usc.edu/cached.pdf") = some full_text
      ∧ sample_c5_result.content = strTake full_text 50000 ++
          (if full_text.length > 50000 then
            "\n\n[... Content truncated. Full document has " ++
              toString full_text.length ++ " characters ...]"
          else "") :=
  claim_C5_read_truncation (fun _ => none) sample_catalog
    "https://adni.loni.usc.edu/cached.pdf"
    [("https://adni.loni.usc.edu/cached.pdf", "Hello")] sample_c5_result
    [("https://adni.loni.usc.edu/cached.pdf", "Hello")] rfl

/-- The result of a cache-hit fetch of the catalogued sample document. -/
def sample_c9_result : PdfResult :=
  { title := "ADNI3 MRI Analysis Manual"
    url := "https://adni.loni.usc.edu/adni3-mri.pdf"
    cached := true
    pages := none
    pages_extracted := none
    content := read_trunc "Doc text"
    citation := "Source: ADNI3 MRI Analysis Manual - https://adni.loni.usc.edu/adni3-mri.pdf" }

/-- Witness for the C9 theorem: title and citation of a fetch whose URL
exactly matches a catalog entry. -/
theorem claim_C9_title_citation_witness :
    sample_c9_result.title = "ADNI3 MRI Analysis Manual"
    ∧ sample_c9_result.citation =
        "Source: ADNI3 MRI Analysis Manual - https://adni.loni.usc.edu/adni3-mri.pdf" :=
  (claim_C9_title_citation (fun _ => none) sample_catalog
      "https://adni.loni.usc.edu/adni3-mri.pdf"
      [("https://adni.loni.usc.edu/adni3-mri.pdf", "Doc text")] sample_c9_result
      [("https://adni.loni.usc.edu/adni3-mri.pdf", "Doc text")] rfl).1
    { title := "ADNI3 MRI Analysis Manual"
      ai_title := "ADNI3 MRI Analysis Manual"
      ai_description := "Analysis manual"
      url := "https://adni.loni.usc.edu/adni3-mri.pdf"
      file_extension := "pdf" } rfl

end ChatAD

namespace ChatAD

/-! ## Batch failure policy (`enhance_documents_with_descriptions` of
`crawlers/adni.py`, and the curation loop of `adni_curate.py`) -/

/-- The outcome of the per-document scrape call inside the `try` block:
successful extraction, an unsuccessful or data-less response, or a raised
exception (caught by the `except` branch). -/
inductive ScrapeOutcome where
  | ok (title description : String)
  | noData
  | exn
  deriving Repr, DecidableEq

/-- A raw crawler document record; the enrichment keys may be absent. -/
structure CrawlDoc where
  url : String
  ai_title : Option String := none
  ai_description : Option String := none
  enhanced : Option Bool := none
  deriving Repr, DecidableEq

/-- One iteration of the enhancement loop: every per-document failure is
caught and recorded as `enhanced = False` on that document. -/
def enhance_one (scrape : String → ScrapeOutcome) (doc : CrawlDoc) : CrawlDoc :=
  match scrape doc.url with
  | .ok t desc =>
    { doc with ai_title := some t, ai_description := some desc, enhanced := some true }
  | .noData => { doc with enhanced := some false }
  | .exn => { doc with enhanced := some false }

/-- `enhance_documents_with_descriptions`: process every document in input
order, appending each processed document to the output. -/
def enhance_documents_with_descriptions (scrape : String → ScrapeOutcome) : List CrawlDoc → List CrawlDoc
  | [] => []
  | doc :: rest => enhance_one scrape doc :: enhance_documents_with_descriptions scrape rest

/-- A document as loaded by the curation script; dict keys may be absent. -/
structure RawCurateDoc where
  ai_title : Option String := none
  url : Option String := none
  deriving Repr, DecidableEq

/-- Python `doc[name]`: a missing key raises `KeyError`. -/
def get_field (name : String) : Option String → Except String String
  | some v => Except.ok v
  | none => Except.error ("KeyError: " ++ name)

/-- The curation loop of `main`: the `doc['ai_title']` and `doc['url']`
accesses sit outside any handler, so the raised `KeyError` aborts the whole
batch. -/
def curate_main (docs : List RawCurateDoc) : Except String OrgState :=
  docs.foldlM (fun st doc => do
    let t ← get_field "ai_title" doc.ai_title
    let u ← get_field "url" doc.url
    pure (curate_step st ⟨t, u⟩)) {}

/-- C8 counterexample: a single document entry missing the expected
`ai_title` field makes the curation batch abort with a `KeyError` instead
of recording the failure and continuing. -/
theorem claim_C8_counterexample :
    curate_main [{ url := some "https://adni.loni.usc.edu/form.pdf" }] =
      Except.error "KeyError: ai_title" := rfl

theorem curate_main_loop (l : List RawCurateDoc) :
    ∀ st : OrgState, l.all (fun d => d.ai_title.isSome && d.url.isSome) = true →
      ∃ st', l.foldlM (fun st doc => do
          let t ← get_field "ai_title" doc.ai_title
          let u ← get_field "url" doc.url
          pure (curate_step st ⟨t, u⟩)) st = Except.ok st' := by
  induction l with
  | nil => exact fun st _ => ⟨st, rfl⟩
  | cons d r ih =>
    intro st hall
    simp only [List.all_cons, Bool.and_eq_true] at hall
    obtain ⟨⟨ht, hu⟩, hrest⟩ := hall
    obtain ⟨t, htv⟩ := Option.isSome_iff_exists.mp ht
    obtain ⟨u, huv⟩ := Option.isSome_iff_exists.mp hu
    rw [List.foldlM_cons, htv, huv]
    exact ih (curate_step st ⟨t, u⟩) hrest

/-- C8 (amended): a per-document enrichment failure never aborts the batch
— the enhancement loop is total, processes every document in place, and
records a scrape exception as `enhanced = False` on that document only —
and the curation loop completes whenever every entry carries its expected
fields; but (see the counterexample) a document entry missing an expected
field aborts the curation batch. -/
theorem claim_C8_failure_policy_amended (scrape : String → ScrapeOutcome)
    (docs : List CrawlDoc) (rdocs : List RawCurateDoc)
    (hall : rdocs.all (fun d => d.ai_title.isSome && d.url.isSome) = true) :
    (enhance_documents_with_descriptions scrape docs).length = docs.length
    ∧ enhance_documents_with_descriptions scrape docs = docs.map (enhance_one scrape)
    ∧ (∀ doc : CrawlDoc, scrape doc.url = ScrapeOutcome.exn →
        (enhance_one scrape doc).enhanced = some false)
    ∧ ∃ st, curate_main rdocs = Except.ok st := by
  have hmap : enhance_documents_with_descriptions scrape docs = docs.map (enhance_one scrape) := by
    induction docs with
    | nil => rfl
    | cons d r ih => simp [enhance_documents_with_descriptions, ih]
  refine ⟨?_, hmap, ?_, ?_⟩
  · rw [hmap, List.length_map]
  · intro doc h
    unfold enhance_one
    rw [h]
  · exact curate_main_loop rdocs {} hall

/-- The scrape oracle used by the C8 witness: one URL raises, the rest
succeed. -/
def sample_scrape : String → ScrapeOutcome := fun u =>
  if u = "https://adni.loni.usc.edu/bad.pdf" then ScrapeOutcome.exn
  else ScrapeOutcome.ok "Doc title" "Doc description"

/-- Crawl documents for the C8 witness. -/
def sample_crawl_docs : List CrawlDoc :=
  [{ url := "https://adni.loni.usc.edu/bad.pdf" },
   { url := "https://adni.loni.usc.edu/good.pdf" }]

/-- Well-formed curation input for the C8 witness. -/
def sample_raw_docs : List RawCurateDoc :=
  [{ ai_title := some "Random Unrelated Form"
     url := some "https://adni.loni.usc.edu/form.pdf" }]

/-- Witness for the C8 amended theorem on concrete inputs with one failing
scrape. -/
theorem claim_C8_failure_policy_amended_witness :
    (enhance_documents_with_descriptions sample_scrape sample_crawl_docs).length = sample_crawl_docs.length
    ∧ enhance_documents_with_descriptions sample_scrape sample_crawl_docs =
        sample_crawl_docs.map (enhance_one sample_scrape)
    ∧ (∀ doc : CrawlDoc, sample_scrape doc.url = ScrapeOutcome.exn →
        (enhance_one sample_scrape doc).enhanced = some false)
    ∧ ∃ st, curate_main sample_raw_docs = Except.ok st :=
  claim_C8_failure_policy_amended sample_scrape sample_crawl_docs sample_raw_docs (by decide)

end ChatAD
